import Mathlib

/-!
Verification of the token ledger, transaction settlement coordinator and
dynamic supply stabilizer of the ParanoidDevdroid repository.

The Python sources embedded here:
  * `tokens/token_manager.py` (`TokenManager.transfer`, validators),
  * `marketplace/transaction_manager.py` (`TransactionManager`),
  * `tokens/dynamic_stabilizer.py` (`DynamicStabilizer`),
  * `config/constants.py` (`TokenType`),
  * `utils/validation_utils.py` (`Validator`).

Monetary quantities are Python `Decimal` values in the source; they are
modelled as rationals (`ℚ`), which is exact for decimal arithmetic.
External collaborators (the smart-contract "Ledger Executor", the market
data feed, timestamps) are passed in as explicit parameters.
-/

namespace PD

/-- Token types, from `config/constants.py` (`class TokenType(Enum)`). -/
inductive TokenType where
  | MAIN
  | UTILITY
  | GOVERNANCE
deriving DecidableEq, Repr

/-- Structured application error, from `utils/error_handler.py`
(`CustomException(code, message, details)`); the `details` payload is not
needed by any claim and is omitted. -/
structure CustomException where
  code : String
  message : String
deriving DecidableEq, Repr

/-- Hex-digit test for the character class `[a-fA-F0-9]` of the address
regular expression in `utils/validation_utils.py`. -/
def isHexChar (c : Char) : Bool :=
  c.isDigit || (('a' ≤ c) && (c ≤ 'f')) || (('A' ≤ c) && (c ≤ 'F'))

/-- `Validator.validate_ethereum_address` from `utils/validation_utils.py`:
the string must match `^0x[a-fA-F0-9]{40}$`, i.e. consist of the two
characters `0x` followed by exactly 40 hex digits. -/
def validate_ethereum_address (s : String) : Bool :=
  match s.data with
  | '0' :: 'x' :: rest => rest.length = 40 && rest.all isHexChar
  | _ => false

/-- `Validator.validate_token_amount` from `utils/validation_utils.py`:
`amount > min_amount` with the default `min_amount = 0`.  (The source first
converts the `Decimal` to `float`; the conversion is exact for every amount
used in the claims and is elided.) -/
def validate_token_amount (amount : ℚ) : Bool :=
  amount > 0

/-! ### The ledger executor's account registry

`TokenManager` keeps no balances of its own: every balance read and every
value move is delegated to the smart contract behind
`SmartContractManager.send_transaction` ("balanceOf", "transfer", "mint",
"burn"), which is an external collaborator of the repository.  The
registry below is therefore modelled from the spec. -/

/-- Designated treasury-style holding account credited by Mint and debited
by Burn.  Modelled from the spec: §4.1 "increase/decrease total supply and
a designated treasury-style holding account"; the zero address stands in
for the treasury wallet. -/
def treasuryAccount : String := "0x0000000000000000000000000000000000000000"

/-- Modelled from the spec: the account registry owned by the Ledger
Executor collaborator (§2 "Account Registry", §6 "Ledger Executor"): a map
from account identifier to per-token-type balances together with the total
supply counter.  `accounts` lists the identifiers created so far; an
identifier outside it has never been referenced and holds balance 0. -/
structure ChainState where
  accounts : List String
  bal : String → TokenType → ℚ
  supply : TokenType → ℚ

/-- Registry view of a balance: 0 for an account that was never created
(spec §3: "Accounts are created on first reference"). -/
def ChainState.getBal (c : ChainState) (a : String) (t : TokenType) : ℚ :=
  if a ∈ c.accounts then c.bal a t else 0

/-- Point update of the balance table at one (account, token-type) key. -/
def setBal (b : String → TokenType → ℚ) (a : String) (t : TokenType) (v : ℚ) :
    String → TokenType → ℚ :=
  fun a' t' => if a' = a ∧ t' = t then v else b a' t'

/-- Modelled from the spec: implicit account creation on first reference
(spec §3); a freshly created account starts with balance 0 in every
token type. -/
def ChainState.ensure (c : ChainState) (a : String) : ChainState :=
  if a ∈ c.accounts then c
  else
    { accounts := a :: c.accounts
      bal := fun a' t' => if a' = a then 0 else c.bal a' t'
      supply := c.supply }

/-- Global sum of the registry's balances for one token type. -/
def sumBal (c : ChainState) (t : TokenType) : ℚ :=
  (c.accounts.map (fun a => c.bal a t)).sum

/-- Well-formedness of the registry: the account list has no duplicates. -/
def ChainState.WF (c : ChainState) : Prop := c.accounts.Nodup

/-- All balances of created accounts are non-negative. -/
def ChainState.NonNeg (c : ChainState) : Prop :=
  ∀ a t, 0 ≤ c.getBal a t

/-- The amount marshalled onto the wire by `TokenManager.transfer`
(`int(amount * 10**18)`, line 215 of `tokens/token_manager.py`): the amount
in wei, truncated.  The amount is positive at every call site (guarded by
`validate_token_amount`), so Python's truncation toward zero is the floor. -/
def weiOf (amount : ℚ) : ℤ := ⌊amount * 10 ^ 18⌋

/-- The token-unit quantity decoded from a wei amount at the contract
boundary (exact division in ℚ). -/
def unWei (w : ℤ) : ℚ := (w : ℚ) / 10 ^ 18

/-- Modelled from the spec: the Ledger Executor's value-move primitive
`move(from, to, amount, tokenType) → success/error` (§6), operating on the
account registry.  Accounts are created on first reference; the move fails
(and mutates nothing) when the source balance is insufficient — the spec's
binding balance check "inside the ledger transfer" (§4.2) — and otherwise
debits the source and credits the destination atomically.  `amtWei` is the
wire-encoded amount; the registry holds token units. -/
def specMove (c : ChainState) (fromAddr toAddr : String) (amtWei : ℤ)
    (t : TokenType) : Option ChainState :=
  let c1 := (c.ensure fromAddr).ensure toAddr
  let x := unWei amtWei
  if c1.getBal fromAddr t < x then none
  else
    let b1 := setBal c1.bal fromAddr t (c1.getBal fromAddr t - x)
    let b2 := setBal b1 toAddr t (b1 toAddr t + x)
    some { c1 with bal := b2 }

/-- Modelled from the spec: the mint direction of the Ledger Executor's
`mintOrBurn(tokenType, amount, direction)` primitive (§6) with the
ledger's Mint semantics (§4.1): fails on `amount ≤ 0` (`InvalidAmount`),
otherwise credits the treasury holding account and increases total
supply. -/
def specMint (c : ChainState) (t : TokenType) (amount : ℚ) : Option ChainState :=
  if amount ≤ 0 then none
  else
    some { (c.ensure treasuryAccount) with
            bal := setBal (c.ensure treasuryAccount).bal treasuryAccount t
                     ((c.ensure treasuryAccount).getBal treasuryAccount t + amount)
            supply := fun t' =>
              if t' = t then (c.ensure treasuryAccount).supply t + amount
              else (c.ensure treasuryAccount).supply t' }

/-- Modelled from the spec: the burn direction of
`mintOrBurn(tokenType, amount, direction)` (§6) with the ledger's Burn
semantics (§4.1): fails on `amount ≤ 0` (`InvalidAmount`); debits the
treasury holding account and decreases total supply, failing
(`InsufficientSupply`) when the debit would drive the supply counter, or
the treasury holding it is taken from, negative (the registry never holds
a negative balance, §3). -/
def specBurn (c : ChainState) (t : TokenType) (amount : ℚ) : Option ChainState :=
  if amount ≤ 0 then none
  else
    if (c.ensure treasuryAccount).getBal treasuryAccount t < amount
        ∨ (c.ensure treasuryAccount).supply t < amount then none
    else
      some { (c.ensure treasuryAccount) with
              bal := setBal (c.ensure treasuryAccount).bal treasuryAccount t
                       ((c.ensure treasuryAccount).getBal treasuryAccount t - amount)
              supply := fun t' =>
                if t' = t then (c.ensure treasuryAccount).supply t - amount
                else (c.ensure treasuryAccount).supply t' }

/-! ### TokenManager (tokens/token_manager.py) -/

/-- Status of a transfer record (`transaction_record['status']` in
`tokens/token_manager.py`). -/
inductive TransferStatus where
  | pending
  | completed
  | failed
deriving DecidableEq, Repr

/-- The transfer record built by `TokenManager.transfer` (lines 193–204 of
`tokens/token_manager.py`) and appended to `transaction_history` in the
`finally` block.  The uuid, timestamps, gas and block number are produced
by external collaborators and carry no claim content; they are omitted. -/
structure TransferRecord where
  from_address : String
  to_address : String
  amount : ℚ
  token_type : TokenType
  status : TransferStatus
  error : Option String
deriving DecidableEq, Repr

/-- The `TokenManager` state the claims touch: the executor-side account
registry (behind `balanceOf`/`transfer` contract calls) together with the
manager's own append-only `transaction_history`.  The balance/allowance
caches and performance metrics are sinks no claim reads. -/
structure TMState where
  chain : ChainState
  transaction_history : List TransferRecord

/-- Type of the executor's value-move primitive injected into the transfer
embedding (the smart contract behind
`SmartContractManager.send_transaction("transfer", ...)`).  `none` models
`result['success'] = False` (or a raised error): the move fails and the
registry is untouched. -/
abbrev MoveFn := ChainState → String → String → ℤ → TokenType → Option ChainState

/-- `TokenManager.transfer` from `tokens/token_manager.py`, lines 153–265:
validate both addresses (`TOKEN_004`), validate the amount (`TOKEN_007`),
read the sender balance and reject a short balance (`TOKEN_001`) — all
before any record or mutation; then create a PENDING record, invoke the
executor's move with the wei-marshalled amount, and either mark the record
COMPLETED (success) or mark it FAILED and raise `TOKEN_008` (failure); the
record is appended to the history in both cases (`finally`). -/
def TokenManager.transfer (mv : MoveFn) (s : TMState) (fromAddr toAddr : String)
    (amount : ℚ) (t : TokenType) : Except CustomException Unit × TMState :=
  if ¬ (validate_ethereum_address fromAddr && validate_ethereum_address toAddr) then
    (.error ⟨"TOKEN_004", "Invalid wallet address"⟩, s)
  else if ¬ validate_token_amount amount then
    (.error ⟨"TOKEN_007", "Invalid transfer amount"⟩, s)
  else
    let sender_balance := s.chain.getBal fromAddr t
    if sender_balance < amount then
      (.error ⟨"TOKEN_001", "Insufficient balance"⟩, s)
    else
      let record : TransferRecord :=
        { from_address := fromAddr, to_address := toAddr, amount := amount
          token_type := t, status := .pending, error := none }
      match mv s.chain fromAddr toAddr (weiOf amount) t with
      | some c' =>
          (.ok (), { chain := c'
                     transaction_history := s.transaction_history ++
                       [{ record with status := .completed }] })
      | none =>
          (.error ⟨"TOKEN_008", "Transfer failed"⟩,
           { chain := s.chain
             transaction_history := s.transaction_history ++
               [{ record with status := .failed,
                              error := some "Transfer failed" }] })

/-! ### Operation sequences over the ledger

Transfers run through `TokenManager.transfer` with the executor's registry
move; mint and burn run through the stabilizer's `_mint_tokens` /
`_burn_tokens` (`tokens/dynamic_stabilizer.py`, lines 291–319), which call
the executor's mint/burn and report success as a boolean. -/

/-- One ledger operation. -/
inductive Op where
  | transferOp (fromAddr toAddr : String) (amount : ℚ) (t : TokenType)
  | mintOp (t : TokenType) (amount : ℚ)
  | burnOp (t : TokenType) (amount : ℚ)

/-- Apply one operation; the boolean reports whether it succeeded.  A
failed operation leaves the state unchanged (transfer: `TOKEN_00x` raised
before mutation or executor failure without mutation; mint/burn: the
executor reports failure and the stabilizer only records it). -/
def applyOp (s : TMState) (op : Op) : TMState × Bool :=
  match op with
  | .transferOp fromAddr toAddr amount t =>
      match TokenManager.transfer specMove s fromAddr toAddr amount t with
      | (.ok _, s') => (s', true)
      | (.error _, s') => (s', false)
  | .mintOp t amount =>
      match specMint s.chain t amount with
      | some c' => ({ s with chain := c' }, true)
      | none => (s, false)
  | .burnOp t amount =>
      match specBurn s.chain t amount with
      | some c' => ({ s with chain := c' }, true)
      | none => (s, false)

/-- Run a sequence of operations (failed ones report failure and leave the
balances unchanged). -/
def runOps (s : TMState) : List Op → TMState
  | [] => s
  | op :: ops => runOps (applyOp s op).1 ops

/-- Amount minted into token type `t` by one operation (0 unless the
operation is a successful mint of `t`). -/
def mintContrib (s : TMState) (op : Op) (t : TokenType) : ℚ :=
  match op, (applyOp s op).2 with
  | .mintOp t' amount, true => if t' = t then amount else 0
  | _, _ => 0

/-- Amount burned from token type `t` by one operation (0 unless the
operation is a successful burn of `t`). -/
def burnContrib (s : TMState) (op : Op) (t : TokenType) : ℚ :=
  match op, (applyOp s op).2 with
  | .burnOp t' amount, true => if t' = t then amount else 0
  | _, _ => 0

/-- Net amount minted for token type `t` by the successful mints of a run. -/
def mintedRun (s : TMState) (t : TokenType) : List Op → ℚ
  | [] => 0
  | op :: ops => mintContrib s op t + mintedRun (applyOp s op).1 t ops

/-- Net amount burned for token type `t` by the successful burns of a run. -/
def burnedRun (s : TMState) (t : TokenType) : List Op → ℚ
  | [] => 0
  | op :: ops => burnContrib s op t + burnedRun (applyOp s op).1 t ops

/-! ### Registry lemmas -/

lemma sum_map_ite (l : List String) (hl : l.Nodup) (a : String) (ha : a ∈ l)
    (f : String → ℚ) (v : ℚ) :
    (l.map (fun x => if x = a then v else f x)).sum = (l.map f).sum - f a + v := by
  induction l with
  | nil => cases ha
  | cons b l ih =>
    rcases List.nodup_cons.mp hl with ⟨hbl, hl'⟩
    by_cases hba : b = a
    · subst hba
      simp only [List.map_cons, List.sum_cons, if_pos rfl]
      have hmap : l.map (fun x => if x = b then v else f x) = l.map f :=
        List.map_congr_left (fun x hx => by
          have hxb : x ≠ b := fun h => hbl (h ▸ hx)
          simp [hxb])
      rw [hmap, if_pos trivial]; ring
    · have hal : a ∈ l := by
        rcases List.mem_cons.mp ha with h | h
        · exact absurd h.symm hba
        · exact h
      simp only [List.map_cons, List.sum_cons, if_neg hba]
      rw [ih hl' hal]; ring

lemma ensure_WF (c : ChainState) (a : String) (h : c.WF) : (c.ensure a).WF := by
  unfold ChainState.ensure ChainState.WF at *
  by_cases ha : a ∈ c.accounts
  · simp [ha, h]
  · simp [ha, List.nodup_cons, h]

lemma mem_ensure_self (c : ChainState) (a : String) : a ∈ (c.ensure a).accounts := by
  unfold ChainState.ensure
  by_cases ha : a ∈ c.accounts <;> simp [ha]

lemma mem_ensure_of_mem (c : ChainState) (a b : String) (h : b ∈ c.accounts) :
    b ∈ (c.ensure a).accounts := by
  unfold ChainState.ensure
  by_cases ha : a ∈ c.accounts <;> simp [ha, h]

lemma getBal_of_mem (c : ChainState) (a : String) (t : TokenType)
    (h : a ∈ c.accounts) : c.getBal a t = c.bal a t := by
  unfold ChainState.getBal; simp [h]

lemma getBal_ensure (c : ChainState) (a b : String) (t : TokenType) :
    (c.ensure a).getBal b t = c.getBal b t := by
  unfold ChainState.ensure ChainState.getBal
  by_cases ha : a ∈ c.accounts
  · simp [ha]
  · by_cases hba : b = a
    · subst hba; simp [ha]
    · simp [ha, hba, List.mem_cons]

lemma supply_ensure (c : ChainState) (a : String) : (c.ensure a).supply = c.supply := by
  unfold ChainState.ensure
  by_cases ha : a ∈ c.accounts <;> simp [ha]

lemma sumBal_ensure (c : ChainState) (a : String) (t : TokenType) :
    sumBal (c.ensure a) t = sumBal c t := by
  unfold ChainState.ensure sumBal
  by_cases ha : a ∈ c.accounts
  · simp [ha]
  · simp only [if_neg ha, List.map_cons, List.sum_cons, if_pos rfl]
    have hmap : c.accounts.map (fun x => if x = a then (0 : ℚ) else c.bal x t)
        = c.accounts.map (fun x => c.bal x t) :=
      List.map_congr_left (fun x hx => by
        have hxa : x ≠ a := fun h => ha (h ▸ hx)
        simp [hxa])
    rw [hmap, if_pos trivial]; ring

lemma nonNeg_ensure (c : ChainState) (a : String) (h : c.NonNeg) :
    (c.ensure a).NonNeg := by
  intro b t; rw [getBal_ensure]; exact h b t

lemma unWei_nonneg (w : ℤ) (hw : 0 ≤ w) : 0 ≤ unWei w := by
  unfold unWei; positivity

lemma weiOf_nonneg (amount : ℚ) (h : 0 < amount) : 0 ≤ weiOf amount := by
  unfold weiOf
  exact Int.floor_nonneg.mpr (by positivity)

lemma sumBal_setBal (c : ChainState) (a : String) (t : TokenType) (v : ℚ)
    (hwf : c.WF) (ha : a ∈ c.accounts) (t' : TokenType) :
    sumBal { c with bal := setBal c.bal a t v } t'
      = if t' = t then sumBal c t' - c.bal a t + v else sumBal c t' := by
  unfold sumBal
  by_cases htt : t' = t
  · subst htt
    simp only [if_pos rfl]
    have hmap : c.accounts.map (fun x => setBal c.bal a t' v x t')
        = c.accounts.map (fun x => if x = a then v else c.bal x t') :=
      List.map_congr_left (fun x _ => by simp [setBal])
    rw [hmap, sum_map_ite c.accounts hwf a ha (fun x => c.bal x t') v,
        if_pos trivial]
  · simp only [if_neg htt]
    have hmap : c.accounts.map (fun x => setBal c.bal a t v x t')
        = c.accounts.map (fun x => c.bal x t') :=
      List.map_congr_left (fun x _ => by simp [setBal, htt])
    rw [hmap]

lemma getBal_setBal (c : ChainState) (a : String) (t : TokenType) (v : ℚ)
    (b : String) (t' : TokenType) :
    ({ c with bal := setBal c.bal a t v } : ChainState).getBal b t'
      = if b ∈ c.accounts then (if b = a ∧ t' = t then v else c.bal b t') else 0 := by
  unfold ChainState.getBal setBal
  rfl

/-! ### Lemmas about the executor primitives -/

lemma specMove_sum (c c' : ChainState) (fromAddr toAddr : String) (w : ℤ)
    (t : TokenType) (hwf : c.WF)
    (h : specMove c fromAddr toAddr w t = some c') (t' : TokenType) :
    sumBal c' t' = sumBal c t' := by
  unfold specMove at h
  set c1 := (c.ensure fromAddr).ensure toAddr with hc1
  have hwf1 : c1.WF := ensure_WF _ _ (ensure_WF _ _ hwf)
  have hf1 : fromAddr ∈ c1.accounts :=
    mem_ensure_of_mem _ _ _ (mem_ensure_self _ _)
  have ht1 : toAddr ∈ c1.accounts := mem_ensure_self _ _
  have hsum1 : ∀ u, sumBal c1 u = sumBal c u := fun u => by
    rw [hc1, sumBal_ensure, sumBal_ensure]
  simp only at h
  split at h
  · exact absurd h (by simp)
  · rw [Option.some_inj] at h
    subst h
    set x := unWei w with hx
    set cm : ChainState :=
      { c1 with bal := setBal c1.bal fromAddr t (c1.getBal fromAddr t - x) }
      with hcm
    have hwfm : cm.WF := hwf1
    have htm : toAddr ∈ cm.accounts := ht1
    have hstep2 :
        sumBal { c1 with
                  bal := setBal (setBal c1.bal fromAddr t (c1.getBal fromAddr t - x))
                           toAddr t
                           (setBal c1.bal fromAddr t (c1.getBal fromAddr t - x) toAddr t + x) } t'
          = if t' = t then sumBal cm t' - cm.bal toAddr t
                             + (cm.bal toAddr t + x)
            else sumBal cm t' :=
      sumBal_setBal cm toAddr t _ hwfm htm t'
    rw [hstep2]
    have hstep1 : sumBal cm t'
        = if t' = t then sumBal c1 t' - c1.bal fromAddr t
                           + (c1.getBal fromAddr t - x)
          else sumBal c1 t' :=
      sumBal_setBal c1 fromAddr t _ hwf1 hf1 t'
    by_cases htt : t' = t
    · subst htt
      rw [if_pos rfl, hstep1, if_pos rfl, getBal_of_mem c1 fromAddr t' hf1, hsum1]
      ring
    · rw [if_neg htt, hstep1, if_neg htt, hsum1]

lemma specMove_WF (c c' : ChainState) (fromAddr toAddr : String) (w : ℤ)
    (t : TokenType) (hwf : c.WF)
    (h : specMove c fromAddr toAddr w t = some c') : c'.WF := by
  unfold specMove at h
  simp only at h
  split at h
  · exact absurd h (by simp)
  · rw [Option.some_inj] at h
    subst h
    exact ensure_WF _ _ (ensure_WF _ _ hwf)

lemma specMove_supply (c c' : ChainState) (fromAddr toAddr : String) (w : ℤ)
    (t : TokenType) (h : specMove c fromAddr toAddr w t = some c') :
    c'.supply = c.supply := by
  unfold specMove at h
  simp only at h
  split at h
  · exact absurd h (by simp)
  · rw [Option.some_inj] at h
    subst h
    show ((c.ensure fromAddr).ensure toAddr).supply = c.supply
    rw [supply_ensure, supply_ensure]

lemma specMove_nonneg (c c' : ChainState) (fromAddr toAddr : String) (w : ℤ)
    (t : TokenType) (hnn : c.NonNeg) (hw : 0 ≤ w)
    (h : specMove c fromAddr toAddr w t = some c') : c'.NonNeg := by
  unfold specMove at h
  set c1 := (c.ensure fromAddr).ensure toAddr with hc1
  have hnn1 : c1.NonNeg := nonNeg_ensure _ _ (nonNeg_ensure _ _ hnn)
  have hf1 : fromAddr ∈ c1.accounts :=
    mem_ensure_of_mem _ _ _ (mem_ensure_self _ _)
  have hxnn : 0 ≤ unWei w := unWei_nonneg w hw
  simp only at h
  split at h
  · exact absurd h (by simp)
  · next hbal =>
    rw [Option.some_inj] at h
    subst h
    rw [not_lt] at hbal
    intro b u
    set x := unWei w with hx
    set cm : ChainState :=
      { c1 with bal := setBal c1.bal fromAddr t (c1.getBal fromAddr t - x) }
      with hcm
    have hmem : (∀ z, z ∈ cm.accounts ↔ z ∈ c1.accounts) := fun z => Iff.rfl
    have hgoal :
        ({ cm with bal := setBal cm.bal toAddr t (cm.bal toAddr t + x) } : ChainState).getBal b u
          = if b ∈ c1.accounts then
              (if b = toAddr ∧ u = t then cm.bal toAddr t + x else cm.bal b u)
            else 0 :=
      getBal_setBal cm toAddr t _ b u
    rw [hgoal]
    by_cases hmemb : b ∈ c1.accounts
    · rw [if_pos hmemb]
      have hmbal : ∀ z v, z ∈ c1.accounts → 0 ≤ c1.bal z v := fun z v hz => by
        have := hnn1 z v
        rwa [getBal_of_mem _ _ _ hz] at this
      by_cases hcase : b = toAddr ∧ u = t
      · rw [if_pos hcase]
        show 0 ≤ setBal c1.bal fromAddr t (c1.getBal fromAddr t - x) toAddr t + x
        unfold setBal
        by_cases hft : toAddr = fromAddr ∧ t = t
        · rw [if_pos hft]
          have : c1.getBal fromAddr t - x + x = c1.getBal fromAddr t := by ring
          rw [this]
          exact hnn1 fromAddr t
        · rw [if_neg hft]
          have h1 : 0 ≤ c1.bal toAddr t := hmbal toAddr t (mem_ensure_self _ _)
          linarith
      · rw [if_neg hcase]
        show 0 ≤ setBal c1.bal fromAddr t (c1.getBal fromAddr t - x) b u
        unfold setBal
        by_cases hfu : b = fromAddr ∧ u = t
        · rw [if_pos hfu]; linarith
        · rw [if_neg hfu]; exact hmbal b u hmemb
    · rw [if_neg hmemb]

lemma sumBal_balOnly (c : ChainState) (u : String → TokenType → ℚ)
    (w : TokenType → ℚ) (t : TokenType) :
    sumBal { c with bal := u, supply := w } t = sumBal { c with bal := u } t := rfl

lemma getBal_balOnly (c : ChainState) (u : String → TokenType → ℚ)
    (w : TokenType → ℚ) (b : String) (t' : TokenType) :
    ({ c with bal := u, supply := w } : ChainState).getBal b t'
      = ({ c with bal := u } : ChainState).getBal b t' := rfl

lemma specMint_sum (c c' : ChainState) (t : TokenType) (amount : ℚ)
    (hwf : c.WF) (h : specMint c t amount = some c') (t' : TokenType) :
    sumBal c' t' = sumBal c t' + (if t' = t then amount else 0) := by
  unfold specMint at h
  split at h
  · exact absurd h (by simp)
  · rw [Option.some_inj] at h
    subst h
    have hwf1 : (c.ensure treasuryAccount).WF := ensure_WF _ _ hwf
    have hm1 : treasuryAccount ∈ (c.ensure treasuryAccount).accounts :=
      mem_ensure_self _ _
    rw [sumBal_balOnly,
        sumBal_setBal (c.ensure treasuryAccount) treasuryAccount t _ hwf1 hm1 t']
    by_cases htt : t' = t
    · subst htt
      rw [if_pos rfl, if_pos rfl, getBal_of_mem _ _ _ hm1, sumBal_ensure]
      ring
    · rw [if_neg htt, if_neg htt, sumBal_ensure]
      ring

lemma specBurn_sum (c c' : ChainState) (t : TokenType) (amount : ℚ)
    (hwf : c.WF) (h : specBurn c t amount = some c') (t' : TokenType) :
    sumBal c' t' = sumBal c t' - (if t' = t then amount else 0) := by
  unfold specBurn at h
  split at h
  · exact absurd h (by simp)
  · split at h
    · exact absurd h (by simp)
    · rw [Option.some_inj] at h
      subst h
      have hwf1 : (c.ensure treasuryAccount).WF := ensure_WF _ _ hwf
      have hm1 : treasuryAccount ∈ (c.ensure treasuryAccount).accounts :=
        mem_ensure_self _ _
      rw [sumBal_balOnly,
          sumBal_setBal (c.ensure treasuryAccount) treasuryAccount t _ hwf1 hm1 t']
      by_cases htt : t' = t
      · subst htt
        rw [if_pos rfl, if_pos rfl, getBal_of_mem _ _ _ hm1, sumBal_ensure]
        ring
      · rw [if_neg htt, if_neg htt, sumBal_ensure]
        ring

lemma specMint_WF (c c' : ChainState) (t : TokenType) (amount : ℚ)
    (hwf : c.WF) (h : specMint c t amount = some c') : c'.WF := by
  unfold specMint at h
  split at h
  · exact absurd h (by simp)
  · rw [Option.some_inj] at h
    subst h
    exact ensure_WF _ _ hwf

lemma specBurn_WF (c c' : ChainState) (t : TokenType) (amount : ℚ)
    (hwf : c.WF) (h : specBurn c t amount = some c') : c'.WF := by
  unfold specBurn at h
  split at h
  · exact absurd h (by simp)
  · split at h
    · exact absurd h (by simp)
    · rw [Option.some_inj] at h
      subst h
      exact ensure_WF _ _ hwf

lemma specMint_nonneg (c c' : ChainState) (t : TokenType) (amount : ℚ)
    (hnn : c.NonNeg) (h : specMint c t amount = some c') : c'.NonNeg := by
  unfold specMint at h
  split at h
  · exact absurd h (by simp)
  · next hamt =>
    rw [not_le] at hamt
    rw [Option.some_inj] at h
    subst h
    have hnn1 : (c.ensure treasuryAccount).NonNeg := nonNeg_ensure _ _ hnn
    intro b u
    rw [getBal_balOnly, getBal_setBal]
    by_cases hmb : b ∈ (c.ensure treasuryAccount).accounts
    · rw [if_pos hmb]
      by_cases hbu : b = treasuryAccount ∧ u = t
      · rw [if_pos hbu]
        have h1 := hnn1 treasuryAccount t
        rw [getBal_of_mem _ _ _ (mem_ensure_self _ _)] at h1
        have h2 : (ChainState.getBal (c.ensure treasuryAccount) treasuryAccount t)
            = (c.ensure treasuryAccount).bal treasuryAccount t :=
          getBal_of_mem _ _ _ (mem_ensure_self _ _)
        rw [h2]
        linarith
      · rw [if_neg hbu]
        have := hnn1 b u
        rwa [getBal_of_mem _ _ _ hmb] at this
    · rw [if_neg hmb]

lemma specBurn_nonneg (c c' : ChainState) (t : TokenType) (amount : ℚ)
    (hnn : c.NonNeg) (h : specBurn c t amount = some c') : c'.NonNeg := by
  unfold specBurn at h
  split at h
  · exact absurd h (by simp)
  · split at h
    · exact absurd h (by simp)
    · next hok =>
      rw [Option.some_inj] at h
      subst h
      rw [not_or, not_lt, not_lt] at hok
      have hnn1 : (c.ensure treasuryAccount).NonNeg := nonNeg_ensure _ _ hnn
      intro b u
      rw [getBal_balOnly, getBal_setBal]
      by_cases hmb : b ∈ (c.ensure treasuryAccount).accounts
      · rw [if_pos hmb]
        by_cases hbu : b = treasuryAccount ∧ u = t
        · rw [if_pos hbu]
          have h1 : amount ≤ (c.ensure treasuryAccount).getBal treasuryAccount t :=
            hok.1
          linarith
        · rw [if_neg hbu]
          have := hnn1 b u
          rwa [getBal_of_mem _ _ _ hmb] at this
      · rw [if_neg hmb]

/-! ### Transfer and operation-level lemmas -/

lemma transfer_chain_cases (mv : MoveFn) (s : TMState) (fromAddr toAddr : String)
    (amount : ℚ) (t : TokenType) :
    ((TokenManager.transfer mv s fromAddr toAddr amount t).2.chain = s.chain)
    ∨ (0 < amount ∧
        mv s.chain fromAddr toAddr (weiOf amount) t
          = some ((TokenManager.transfer mv s fromAddr toAddr amount t).2.chain)) := by
  simp only [TokenManager.transfer]
  by_cases hv : (validate_ethereum_address fromAddr
      && validate_ethereum_address toAddr) = true
  · rw [if_neg (not_not_intro hv)]
    by_cases ha : validate_token_amount amount = true
    · rw [if_neg (not_not_intro ha)]
      by_cases hbal : s.chain.getBal fromAddr t < amount
      · rw [if_pos hbal]
        exact Or.inl rfl
      · rw [if_neg hbal]
        cases hmv : mv s.chain fromAddr toAddr (weiOf amount) t with
        | none => exact Or.inl rfl
        | some c' =>
            right
            refine ⟨?_, rfl⟩
            simpa [validate_token_amount] using ha
    · rw [if_pos ha]
      exact Or.inl rfl
  · rw [if_pos hv]
    exact Or.inl rfl

lemma transfer_sumBal (s : TMState) (fromAddr toAddr : String) (amount : ℚ)
    (t : TokenType) (hwf : s.chain.WF) (t' : TokenType) :
    sumBal (TokenManager.transfer specMove s fromAddr toAddr amount t).2.chain t'
      = sumBal s.chain t' := by
  rcases transfer_chain_cases specMove s fromAddr toAddr amount t with h | ⟨_, hmv⟩
  · rw [h]
  · exact specMove_sum s.chain _ fromAddr toAddr (weiOf amount) t hwf hmv t'

lemma transfer_WF (s : TMState) (fromAddr toAddr : String) (amount : ℚ)
    (t : TokenType) (hwf : s.chain.WF) :
    (TokenManager.transfer specMove s fromAddr toAddr amount t).2.chain.WF := by
  rcases transfer_chain_cases specMove s fromAddr toAddr amount t with h | ⟨_, hmv⟩
  · rw [h]; exact hwf
  · exact specMove_WF s.chain _ fromAddr toAddr (weiOf amount) t hwf hmv

lemma transfer_nonneg (s : TMState) (fromAddr toAddr : String) (amount : ℚ)
    (t : TokenType) (hnn : s.chain.NonNeg) :
    (TokenManager.transfer specMove s fromAddr toAddr amount t).2.chain.NonNeg := by
  rcases transfer_chain_cases specMove s fromAddr toAddr amount t with h | ⟨hp, hmv⟩
  · rw [h]; exact hnn
  · exact specMove_nonneg s.chain _ fromAddr toAddr (weiOf amount) t hnn
      (weiOf_nonneg amount hp) hmv

lemma applyOp_transfer_fst (s : TMState) (fromAddr toAddr : String) (amount : ℚ)
    (t : TokenType) :
    (applyOp s (.transferOp fromAddr toAddr amount t)).1
      = (TokenManager.transfer specMove s fromAddr toAddr amount t).2 := by
  simp only [applyOp]
  cases hE : TokenManager.transfer specMove s fromAddr toAddr amount t with
  | mk r s' => cases r <;> rfl

lemma applyOp_mint_none (s : TMState) (tt : TokenType) (amount : ℚ)
    (hE : specMint s.chain tt amount = none) :
    applyOp s (.mintOp tt amount) = (s, false) := by
  simp only [applyOp]; rw [hE]

lemma applyOp_mint_some (s : TMState) (tt : TokenType) (amount : ℚ)
    (c' : ChainState) (hE : specMint s.chain tt amount = some c') :
    applyOp s (.mintOp tt amount) = ({ s with chain := c' }, true) := by
  simp only [applyOp]; rw [hE]

lemma applyOp_burn_none (s : TMState) (tt : TokenType) (amount : ℚ)
    (hE : specBurn s.chain tt amount = none) :
    applyOp s (.burnOp tt amount) = (s, false) := by
  simp only [applyOp]; rw [hE]

lemma applyOp_burn_some (s : TMState) (tt : TokenType) (amount : ℚ)
    (c' : ChainState) (hE : specBurn s.chain tt amount = some c') :
    applyOp s (.burnOp tt amount) = ({ s with chain := c' }, true) := by
  simp only [applyOp]; rw [hE]

lemma applyOp_WF (s : TMState) (op : Op) (hwf : s.chain.WF) :
    (applyOp s op).1.chain.WF := by
  cases op with
  | transferOp f a amount tt =>
      rw [applyOp_transfer_fst]
      exact transfer_WF s f a amount tt hwf
  | mintOp tt amount =>
      cases hE : specMint s.chain tt amount with
      | none => rw [applyOp_mint_none s tt amount hE]; exact hwf
      | some c' =>
          rw [applyOp_mint_some s tt amount c' hE]
          exact specMint_WF s.chain c' tt amount hwf hE
  | burnOp tt amount =>
      cases hE : specBurn s.chain tt amount with
      | none => rw [applyOp_burn_none s tt amount hE]; exact hwf
      | some c' =>
          rw [applyOp_burn_some s tt amount c' hE]
          exact specBurn_WF s.chain c' tt amount hwf hE

lemma applyOp_nonneg (s : TMState) (op : Op) (hnn : s.chain.NonNeg) :
    (applyOp s op).1.chain.NonNeg := by
  cases op with
  | transferOp f a amount tt =>
      rw [applyOp_transfer_fst]
      exact transfer_nonneg s f a amount tt hnn
  | mintOp tt amount =>
      cases hE : specMint s.chain tt amount with
      | none => rw [applyOp_mint_none s tt amount hE]; exact hnn
      | some c' =>
          rw [applyOp_mint_some s tt amount c' hE]
          exact specMint_nonneg s.chain c' tt amount hnn hE
  | burnOp tt amount =>
      cases hE : specBurn s.chain tt amount with
      | none => rw [applyOp_burn_none s tt amount hE]; exact hnn
      | some c' =>
          rw [applyOp_burn_some s tt amount c' hE]
          exact specBurn_nonneg s.chain c' tt amount hnn hE

lemma applyOp_sumBal (s : TMState) (op : Op) (t : TokenType) (hwf : s.chain.WF) :
    sumBal (applyOp s op).1.chain t
      = sumBal s.chain t + mintContrib s op t - burnContrib s op t := by
  cases op with
  | transferOp f a amount tt =>
      have hc : mintContrib s (.transferOp f a amount tt) t = 0 := by
        unfold mintContrib
        cases (applyOp s (Op.transferOp f a amount tt)).2 <;> rfl
      have hb : burnContrib s (.transferOp f a amount tt) t = 0 := by
        unfold burnContrib
        cases (applyOp s (Op.transferOp f a amount tt)).2 <;> rfl
      rw [hc, hb, applyOp_transfer_fst, transfer_sumBal s f a amount tt hwf t]
      ring
  | mintOp tt amount =>
      cases hE : specMint s.chain tt amount with
      | none =>
          have h1 := applyOp_mint_none s tt amount hE
          simp [mintContrib, burnContrib, h1]
      | some c' =>
          have h1 := applyOp_mint_some s tt amount c' hE
          have h2 := specMint_sum s.chain c' tt amount hwf hE t
          simp only [mintContrib, burnContrib, h1, h2]
          rcases eq_or_ne tt t with hq | hq
          · subst hq; simp
          · simp [hq, Ne.symm hq]
  | burnOp tt amount =>
      cases hE : specBurn s.chain tt amount with
      | none =>
          have h1 := applyOp_burn_none s tt amount hE
          simp [mintContrib, burnContrib, h1]
      | some c' =>
          have h1 := applyOp_burn_some s tt amount c' hE
          have h2 := specBurn_sum s.chain c' tt amount hwf hE t
          simp only [mintContrib, burnContrib, h1, h2]
          rcases eq_or_ne tt t with hq | hq
          · subst hq; simp
          · simp [hq, Ne.symm hq]

lemma runOps_WF (s : TMState) (ops : List Op) (hwf : s.chain.WF) :
    (runOps s ops).chain.WF := by
  induction ops generalizing s with
  | nil => exact hwf
  | cons op ops ih =>
      simp only [runOps]
      exact ih _ (applyOp_WF s op hwf)

lemma runOps_nonneg (s : TMState) (ops : List Op) (hnn : s.chain.NonNeg) :
    (runOps s ops).chain.NonNeg := by
  induction ops generalizing s with
  | nil => exact hnn
  | cons op ops ih =>
      simp only [runOps]
      exact ih _ (applyOp_nonneg s op hnn)

lemma runOps_sumBal (s : TMState) (ops : List Op) (t : TokenType)
    (hwf : s.chain.WF) :
    sumBal (runOps s ops).chain t
      = sumBal s.chain t + mintedRun s t ops - burnedRun s t ops := by
  induction ops generalizing s with
  | nil => simp [runOps, mintedRun, burnedRun]
  | cons op ops ih =>
      simp only [runOps, mintedRun, burnedRun]
      rw [ih _ (applyOp_WF s op hwf), applyOp_sumBal s op t hwf]
      ring

/-! ### Claims C1–C3 -/

/-- Concrete wallet addresses for the witnesses below. -/
def addrA : String := "0x00000000000000000000000000000000000000aa"

def addrB : String := "0x00000000000000000000000000000000000000bb"

/-- Empty initial ledger state. -/
def c1s0 : TMState :=
  { chain := { accounts := [], bal := fun _ _ => 0, supply := fun _ => 0 }
    transaction_history := [] }

/-- Mint 100 UTILITY, transfer 30 of it out of the treasury, burn 20. -/
def c1ops : List Op :=
  [.mintOp .UTILITY 100,
   .transferOp treasuryAccount addrA 30 .UTILITY,
   .burnOp .UTILITY 20]

/-- C1: for every finite sequence of Transfer/Mint/Burn operations and
every token type, the sum of all account balances equals the initial total
supply plus net minted minus net burned (exactly, in ℚ); in particular a
successful Transfer leaves the global sum for its token type unchanged. -/
theorem claim_C1_conservation (s0 : TMState) (ops : List Op) (t : TokenType)
    (hwf : s0.chain.WF) (hsup : sumBal s0.chain t = s0.chain.supply t) :
    (sumBal (runOps s0 ops).chain t
       = s0.chain.supply t + mintedRun s0 t ops - burnedRun s0 t ops)
    ∧ (∀ (s : TMState) (fromAddr toAddr : String) (amount : ℚ),
        s.chain.WF →
        (TokenManager.transfer specMove s fromAddr toAddr amount t).1 = .ok () →
        sumBal (TokenManager.transfer specMove s fromAddr toAddr amount t).2.chain t
          = sumBal s.chain t) := by
  constructor
  · rw [runOps_sumBal s0 ops t hwf, hsup]
  · intro s fa ta amount hwfs _
    exact transfer_sumBal s fa ta amount t hwfs t

/-- Witness for C1 at a concrete run: empty ledger, mint 100 UTILITY,
transfer 30, burn 20. -/
theorem claim_C1_conservation_witness :
    (sumBal (runOps c1s0 c1ops).chain .UTILITY
       = c1s0.chain.supply .UTILITY + mintedRun c1s0 .UTILITY c1ops
           - burnedRun c1s0 .UTILITY c1ops)
    ∧ (∀ (s : TMState) (fromAddr toAddr : String) (amount : ℚ),
        s.chain.WF →
        (TokenManager.transfer specMove s fromAddr toAddr amount .UTILITY).1 = .ok () →
        sumBal (TokenManager.transfer specMove s fromAddr toAddr amount .UTILITY).2.chain .UTILITY
          = sumBal s.chain .UTILITY) :=
  claim_C1_conservation c1s0 c1ops .UTILITY List.nodup_nil (by decide)

/-- The executor whose value-move step fails: `send_transaction` returns
`success = False` and the registry is untouched. -/
def failMove : MoveFn := fun _ _ _ _ _ => none

/-- A funded two-account ledger state. -/
def c2s : TMState :=
  { chain :=
      { accounts := [addrA, addrB]
        bal := fun a t =>
          if a = addrA ∧ t = .UTILITY then 1000
          else if a = addrB ∧ t = .UTILITY then 500 else 0
        supply := fun _ => 1500 }
    transaction_history := [] }

/-- C2: a Transfer whose executor value-move step fails raises the
structured `TOKEN_008` error, appends the attempt's record with status
FAILED, and leaves every balance (the whole registry) exactly as before
the call. -/
theorem claim_C2_transfer_atomicity (mv : MoveFn) (s : TMState)
    (fromAddr toAddr : String) (amount : ℚ) (t : TokenType)
    (hvf : validate_ethereum_address fromAddr = true)
    (hvt : validate_ethereum_address toAddr = true)
    (hva : validate_token_amount amount = true)
    (hbal : ¬ s.chain.getBal fromAddr t < amount)
    (hfail : mv s.chain fromAddr toAddr (weiOf amount) t = none) :
    TokenManager.transfer mv s fromAddr toAddr amount t
      = (.error ⟨"TOKEN_008", "Transfer failed"⟩,
         { chain := s.chain
           transaction_history := s.transaction_history ++
             [{ from_address := fromAddr, to_address := toAddr, amount := amount
                token_type := t, status := .failed
                error := some "Transfer failed" }] }) := by
  simp only [TokenManager.transfer]
  rw [if_neg (not_not_intro (by rw [hvf, hvt]; rfl)),
      if_neg (not_not_intro hva), if_neg hbal, hfail]

/-- Witness for C2: inject an executor failure on a funded transfer. -/
theorem claim_C2_transfer_atomicity_witness :
    TokenManager.transfer failMove c2s addrA addrB 100 .UTILITY
      = (.error ⟨"TOKEN_008", "Transfer failed"⟩,
         { chain := c2s.chain
           transaction_history := c2s.transaction_history ++
             [{ from_address := addrA, to_address := addrB, amount := 100
                token_type := .UTILITY, status := .failed
                error := some "Transfer failed" }] }) :=
  claim_C2_transfer_atomicity failMove c2s addrA addrB 100 .UTILITY
    (by decide) (by decide) (by decide) (by decide) rfl

/-- C3: every state reachable by Transfer/Mint/Burn from a state with
non-negative balances has non-negative balances; and a Transfer whose
amount exceeds the sender's available balance fails with the
`TOKEN_001` Insufficient-balance error, mutating nothing at all. -/
theorem claim_C3_no_negative_balances :
    (∀ (s0 : TMState) (ops : List Op), s0.chain.NonNeg →
        (runOps s0 ops).chain.NonNeg)
    ∧ (∀ (s : TMState) (fromAddr toAddr : String) (amount : ℚ) (t : TokenType),
        validate_ethereum_address fromAddr = true →
        validate_ethereum_address toAddr = true →
        validate_token_amount amount = true →
        s.chain.getBal fromAddr t < amount →
        TokenManager.transfer specMove s fromAddr toAddr amount t
          = (.error ⟨"TOKEN_001", "Insufficient balance"⟩, s)) := by
  constructor
  · exact fun s0 ops hnn => runOps_nonneg s0 ops hnn
  · intro s fa ta amount t hvf hvt hva hlt
    simp only [TokenManager.transfer]
    rw [if_neg (not_not_intro (by rw [hvf, hvt]; rfl)),
        if_neg (not_not_intro hva), if_pos hlt]

/-- Witness for C3: run the C1 scenario from the funded state, and reject
an overdraft of 2000 from a balance of 1000. -/
theorem claim_C3_no_negative_balances_witness :
    (runOps c2s c1ops).chain.NonNeg
    ∧ TokenManager.transfer specMove c2s addrA addrB 2000 .UTILITY
        = (.error ⟨"TOKEN_001", "Insufficient balance"⟩, c2s) :=
  ⟨claim_C3_no_negative_balances.1 c2s c1ops
      (by
        intro a t
        unfold ChainState.getBal
        split_ifs with h
        · simp only [c2s]
          split_ifs <;> norm_num
        · exact le_refl 0),
   claim_C3_no_negative_balances.2 c2s addrA addrB 2000 .UTILITY
      (by decide) (by decide) (by decide) (by decide)⟩

/-! ### TransactionManager (marketplace/transaction_manager.py) -/

/-- `TransactionState` from `marketplace/transaction_manager.py`. -/
inductive TransactionState where
  | PENDING
  | PROCESSING
  | COMPLETED
  | FAILED
  | REFUNDED
  | DISPUTED
deriving DecidableEq, Repr

/-- The resolution record written by `resolve_dispute`
(`transaction['dispute']['resolution']`). -/
structure DisputeResolution where
  outcome : String
  refunded : Bool
  resolved_at : ℚ
deriving DecidableEq, Repr

/-- The dispute sub-record written by `dispute_transaction`
(`transaction['dispute']`). -/
structure DisputeInfo where
  opened_by : String
  reason : String
  opened_at : ℚ
  resolution : Option DisputeResolution
deriving DecidableEq, Repr

/-- A marketplace transaction record (the dict built in
`create_transaction`); the uuid id is the association key in `TxState`,
and timestamps other than the dispute ones carry no claim content. -/
structure MPTransaction where
  buyer_id : String
  seller_id : String
  agent_id : String
  listing_id : Option String
  amount : ℚ
  fee : ℚ
  total_amount : ℚ
  state : TransactionState
  dispute : Option DisputeInfo
  error : Option String
deriving DecidableEq, Repr

/-- The metrics fields of `TransactionManager` that the embedded
operations read or write. -/
structure TxMetrics where
  total_transactions : ℕ
  successful_transactions : ℕ
  failed_transactions : ℕ
  dispute_rate : ℚ
deriving DecidableEq, Repr

/-- `TransactionManager` state: `self.transactions` (dict id → record,
as an association list), `self.user_transactions` (dict user → ids) and
the metrics. -/
structure TxState where
  transactions : List (String × MPTransaction)
  user_transactions : List (String × List String)
  metrics : TxMetrics
deriving DecidableEq, Repr

/-- Python dict read `d.get(key)`. -/
def assocGet {α : Type} : List (String × α) → String → Option α
  | [], _ => none
  | (k, v) :: rest, key => if key = k then some v else assocGet rest key

/-- Python dict write `d[key] = v` (in-place update of the stored value). -/
def assocSet {α : Type} : List (String × α) → String → α → List (String × α)
  | [], key, v => [(key, v)]
  | (k, w) :: rest, key, v =>
      if key = k then (key, v) :: rest else (k, w) :: assocSet rest key v

/-- Fee configuration from `TransactionManager.__init__` (`fee_config`):
2.5% base rate. -/
def base_fee_rate : ℚ := 25 / 1000

/-- `fee_config['min_fee']`. -/
def min_fee : ℚ := 1 / 10

/-- `fee_config['max_fee']`. -/
def max_fee : ℚ := 100

/-- `fee_config['volume_discount_tiers']` as iterated by
`sorted(..., reverse=True)`: thresholds in decreasing order with their
discounted rates. -/
def volume_discount_tiers : List (ℚ × ℚ) :=
  [(100000, 1 / 100), (10000, 15 / 1000), (1000, 2 / 100)]

/-- The tier-selection loop of `_calculate_fee`: walk the thresholds in
decreasing order and take the first one the volume reaches, defaulting to
the base rate. -/
def pickRate : List (ℚ × ℚ) → ℚ → ℚ → ℚ
  | [], base, _ => base
  | (threshold, rate) :: rest, base, volume =>
      if volume ≥ threshold then rate else pickRate rest base volume

/-- Python's binary `min` builtin on numbers. -/
def pyMin (a b : ℚ) : ℚ := if a ≤ b then a else b

/-- Python's binary `max` builtin on numbers. -/
def pyMax (a b : ℚ) : ℚ := if b ≤ a then a else b

/-- Python's `abs` builtin on numbers. -/
def pyAbs (a : ℚ) : ℚ := if 0 ≤ a then a else -a

/-- `TransactionManager._calculate_fee` (lines 69–91): tier rate from the
buyer volume, `fee = amount * rate` clamped into `[min_fee, max_fee]` via
`max(min_fee, min(max_fee, fee))`. -/
def calculate_fee (amount user_volume : ℚ) : ℚ :=
  let fee_rate := pickRate volume_discount_tiers base_fee_rate user_volume
  let fee := amount * fee_rate
  pyMax min_fee (pyMin max_fee fee)

/-- The buyer trailing volume computed in `create_transaction` (lines
117–122): the sum of the amounts of the caller's COMPLETED transactions
(an id whose record is missing would raise a `KeyError` in the source;
states reached through the manager always resolve every indexed id). -/
def buyerVolume (s : TxState) (buyer_id : String) : ℚ :=
  ((((assocGet s.user_transactions buyer_id).getD []).filterMap
      (fun tid => assocGet s.transactions tid)).filter
      (fun tx => tx.state = .COMPLETED)).foldl (fun acc tx => acc + tx.amount) 0

/-- `TransactionManager.create_transaction` (lines 93–181): rejects
`buyer == seller` (`TRANS_001`) and a non-positive amount (`TRANS_002`),
computes the fee and total, then evaluates
`await self.token_manager.check_balance(buyer_id, float(total_amount))`.
`TokenManager` (tokens/token_manager.py) defines no attribute
`check_balance` — nor does any other module in the repository — so the
attribute lookup raises `AttributeError`, which `handle_exceptions`
(utils/error_handler.py) wraps as a `CustomException` with code
`INTERNAL_ERROR`.  The record-creation and processing code below that line
is unreachable. -/
def create_transaction (s : TxState) (buyer_id seller_id agent_id : String)
    (amount : ℚ) : Except CustomException String × TxState :=
  if buyer_id = seller_id then
    (.error ⟨"TRANS_001", "Buyer and seller cannot be the same"⟩, s)
  else if ¬ validate_token_amount amount then
    (.error ⟨"TRANS_002", "Invalid transaction amount"⟩, s)
  else
    let buyer_volume := buyerVolume s buyer_id
    let fee := calculate_fee amount buyer_volume
    let total_amount := amount + fee
    (.error ⟨"INTERNAL_ERROR",
             "TokenManager object has no attribute check_balance"⟩, s)

/-- `TransactionManager.dispute_transaction` (lines 306–358): not-found
(`TRANS_004`), opener must be buyer or seller (`TRANS_005`), state must be
COMPLETED or FAILED (`TRANS_006`); on success the record moves to DISPUTED
with the dispute metadata stamped and the running dispute-rate metric is
recomputed over the updated table. -/
def dispute_transaction (s : TxState) (transaction_id user_id reason : String)
    (now : ℚ) : Except CustomException Bool × TxState :=
  match assocGet s.transactions transaction_id with
  | none => (.error ⟨"TRANS_004", "Transaction not found"⟩, s)
  | some transaction =>
    if user_id ≠ transaction.buyer_id ∧ user_id ≠ transaction.seller_id then
      (.error ⟨"TRANS_005", "Unauthorized transaction access"⟩, s)
    else if transaction.state ≠ .COMPLETED ∧ transaction.state ≠ .FAILED then
      (.error ⟨"TRANS_006", "Transaction cannot be disputed in current state"⟩, s)
    else
      let tx1 : MPTransaction :=
        { transaction with
            state := .DISPUTED
            dispute := some { opened_by := user_id, reason := reason,
                              opened_at := now, resolution := none } }
      let s1 : TxState :=
        { s with transactions := assocSet s.transactions transaction_id tx1 }
      let total_completed :=
        s.metrics.successful_transactions + s.metrics.failed_transactions
      let s2 : TxState :=
        if total_completed > 0 then
          { s1 with metrics :=
              { s1.metrics with dispute_rate :=
                  ((s1.transactions.filter
                      (fun p => p.2.state = .DISPUTED)).length : ℚ)
                    / (total_completed : ℚ) } }
        else s1
      (.ok true, s2)

/-- The write `transaction['dispute']['resolution'] = {...}` at the end of
`resolve_dispute` (lines 416–421), applied to the (possibly already
REFUNDED-marked) record `tx`.  A DISPUTED record always carries a dispute
sub-record (set by `dispute_transaction`); if it were missing the lookup
would raise a `KeyError`, wrapped as `INTERNAL_ERROR`, after the earlier
in-place state write had already persisted. -/
def setResolution (s : TxState) (tid : String) (tx : MPTransaction)
    (resolution : String) (refund : Bool) (now : ℚ) :
    Except CustomException Bool × TxState :=
  match tx.dispute with
  | none =>
      (.error ⟨"INTERNAL_ERROR", "dispute"⟩,
       { s with transactions := assocSet s.transactions tid tx })
  | some d =>
      let res : DisputeResolution :=
        { outcome := resolution, refunded := refund, resolved_at := now }
      let d2 : DisputeInfo := { d with resolution := some res }
      let tx2 : MPTransaction := { tx with dispute := some d2 }
      (.ok true, { s with transactions := assocSet s.transactions tid tx2 })

/-- `TransactionManager.resolve_dispute` (lines 360–424): not-found
(`TRANS_004`); only a DISPUTED record is accepted (`TRANS_007`).  With
`refund` the principal and fee reversal transfers and the ownership revert
run first — on any failure (`refundOk = false`, standing for a raised
exception in that block) the call fails with `TRANS_008` and the record is
untouched; on success the state becomes REFUNDED.  In every surviving path
the dispute resolution is then recorded.  Without `refund` the state field
is never written. -/
def resolve_dispute (s : TxState) (transaction_id resolution : String)
    (refund : Bool) (refundOk : Bool) (now : ℚ) :
    Except CustomException Bool × TxState :=
  match assocGet s.transactions transaction_id with
  | none => (.error ⟨"TRANS_004", "Transaction not found"⟩, s)
  | some transaction =>
    if transaction.state ≠ .DISPUTED then
      (.error ⟨"TRANS_007", "Transaction is not disputed"⟩, s)
    else
      if refund then
        if refundOk then
          setResolution s transaction_id
            { transaction with state := .REFUNDED } resolution refund now
        else
          (.error ⟨"TRANS_008", "Refund failed"⟩, s)
      else
        setResolution s transaction_id transaction resolution refund now

/-! ### Claims C4–C6 and C9 -/

/-- Fresh `TransactionManager` state. -/
def txEmpty : TxState :=
  { transactions := [], user_transactions := []
    metrics := { total_transactions := 0, successful_transactions := 0
                 failed_transactions := 0, dispute_rate := 0 } }

/-- C4 (code bug): every `create_transaction` call that passes the
participant and amount validation fails with the wrapped `INTERNAL_ERROR`
(the balance pre-check calls the non-existent `TokenManager.check_balance`),
so no PENDING transaction is ever created and no id returned. -/
theorem claim_C4_create_transaction_fails (s : TxState)
    (buyer_id seller_id agent_id : String) (amount : ℚ)
    (hne : buyer_id ≠ seller_id)
    (hamt : validate_token_amount amount = true) :
    create_transaction s buyer_id seller_id agent_id amount
      = (.error ⟨"INTERNAL_ERROR",
                 "TokenManager object has no attribute check_balance"⟩, s) := by
  simp only [create_transaction]
  rw [if_neg hne, if_neg (not_not_intro hamt)]

/-- Witness for C4: a perfectly valid purchase request dies at the balance
pre-check. -/
theorem claim_C4_create_transaction_fails_witness :
    create_transaction txEmpty "alice" "bob" "agent-1" 1000
      = (.error ⟨"INTERNAL_ERROR",
                 "TokenManager object has no attribute check_balance"⟩,
         txEmpty) :=
  claim_C4_create_transaction_fails txEmpty "alice" "bob" "agent-1" 1000
    (by decide) (by decide)

/-- The dispute sub-record of the C5 scenario transaction. -/
def c5d : DisputeInfo :=
  { opened_by := "alice", reason := "defect", opened_at := 5
    resolution := none }

/-- A DISPUTED transaction: alice bought agent-1 from bob for 1000 + 25 fee
and opened a dispute. -/
def c5tx : MPTransaction :=
  { buyer_id := "alice", seller_id := "bob", agent_id := "agent-1"
    listing_id := none, amount := 1000, fee := 25, total_amount := 1025
    state := .DISPUTED, dispute := some c5d, error := none }

/-- Manager state holding the DISPUTED transaction `t1`. -/
def c5s : TxState :=
  { transactions := [("t1", c5tx)]
    user_transactions := [("alice", ["t1"]), ("bob", ["t1"])]
    metrics := { total_transactions := 1, successful_transactions := 1
                 failed_transactions := 0, dispute_rate := 1 } }

/-- C5 counterexample: resolving the dispute of `t1` with `refund = false`
returns success and records the resolution, yet the stored transaction is
still DISPUTED — its state is never set to COMPLETED. -/
theorem claim_C5_counterexample :
    (resolve_dispute c5s "t1" "rejected" false false 10).1.toOption = some true
    ∧ (assocGet (resolve_dispute c5s "t1" "rejected" false false 10).2.transactions
        "t1").map (fun tx => tx.state) = some .DISPUTED
    ∧ some TransactionState.DISPUTED ≠ some TransactionState.COMPLETED := by
  decide

/-- The record produced by the `transaction['dispute']['resolution']`
write of `resolve_dispute`. -/
def withResolution (tx : MPTransaction) (d : DisputeInfo)
    (resolution : String) (refund : Bool) (now : ℚ) : MPTransaction :=
  let res : DisputeResolution :=
    { outcome := resolution, refunded := refund, resolved_at := now }
  let d2 : DisputeInfo := { d with resolution := some res }
  { tx with dispute := some d2 }

/-- C5 (amended): `resolve_dispute` with `refund = false` on a DISPUTED
transaction returns success and records the dispute resolution (outcome,
refunded := false, resolution time) on the transaction, but leaves the
transaction's state DISPUTED (the code never sets COMPLETED). -/
theorem claim_C5_resolve_without_refund (s : TxState)
    (tid resolution : String) (refundOk : Bool) (now : ℚ)
    (tx : MPTransaction) (d : DisputeInfo)
    (htx : assocGet s.transactions tid = some tx)
    (hst : tx.state = .DISPUTED) (hd : tx.dispute = some d) :
    resolve_dispute s tid resolution false refundOk now
      = (.ok true,
         { s with transactions :=
             assocSet s.transactions tid (withResolution tx d resolution false now) }) := by
  unfold resolve_dispute
  rw [htx]
  dsimp only
  rw [if_neg (not_not_intro hst)]
  unfold setResolution
  rw [hd]
  rfl

/-- Witness for C5 (amended) on the concrete DISPUTED transaction. -/
theorem claim_C5_resolve_without_refund_witness :
    resolve_dispute c5s "t1" "rejected" false false 10
      = (.ok true,
         { c5s with transactions :=
             assocSet c5s.transactions "t1" (withResolution c5tx c5d "rejected" false 10) }) :=
  claim_C5_resolve_without_refund c5s "t1" "rejected" false 10 c5tx c5d
    (by decide) rfl rfl

/-- C6: the tier rate is non-increasing in the buyer's trailing volume;
for every amount and volume the fee is `amount * rate` clamped into
`[min_fee, max_fee]`; and a zero-volume buyer paying 1000 at the 2.5% base
rate owes fee 25 and total 1025. -/
theorem claim_C6_fee_computation :
    (∀ v1 v2 : ℚ, v1 ≤ v2 →
        pickRate volume_discount_tiers base_fee_rate v2
          ≤ pickRate volume_discount_tiers base_fee_rate v1)
    ∧ (∀ amount volume : ℚ,
        calculate_fee amount volume
          = pyMax min_fee (pyMin max_fee
              (amount * pickRate volume_discount_tiers base_fee_rate volume)))
    ∧ calculate_fee 1000 0 = 25
    ∧ 1000 + calculate_fee 1000 0 = 1025 := by
  refine ⟨?_, ?_, ?_, ?_⟩
  · intro v1 v2 h12
    simp only [pickRate, volume_discount_tiers, base_fee_rate]
    split_ifs <;> linarith
  · intro amount volume
    rfl
  · simp only [calculate_fee, pickRate, volume_discount_tiers, base_fee_rate,
        min_fee, max_fee, pyMin, pyMax]
    norm_num
  · simp only [calculate_fee, pickRate, volume_discount_tiers, base_fee_rate,
        min_fee, max_fee, pyMin, pyMax]
    norm_num

/-- Witness for C6: a higher-volume buyer never pays a higher rate, and
the concrete 1000-at-2.5% example. -/
theorem claim_C6_fee_computation_witness :
    pickRate volume_discount_tiers base_fee_rate 2000
        ≤ pickRate volume_discount_tiers base_fee_rate 0
    ∧ calculate_fee 1000 0 = 25 :=
  ⟨claim_C6_fee_computation.1 0 2000 (by norm_num),
   claim_C6_fee_computation.2.2.1⟩

/-- C9: with the transaction present, `dispute_transaction` succeeds
exactly when the caller is the buyer or the seller and the state is
COMPLETED or FAILED; a non-participant gets `TRANS_005` and a participant
in any other state gets `TRANS_006`, both leaving the manager state
untouched; and `resolve_dispute` accepts only a DISPUTED transaction,
failing with `TRANS_007` (untouched state) otherwise. -/
theorem claim_C9_dispute_state_machine (s : TxState)
    (tid user_id reason : String) (now : ℚ) (tx : MPTransaction)
    (htx : assocGet s.transactions tid = some tx) :
    ((dispute_transaction s tid user_id reason now).1 = .ok true
        ↔ ((user_id = tx.buyer_id ∨ user_id = tx.seller_id)
            ∧ (tx.state = .COMPLETED ∨ tx.state = .FAILED)))
    ∧ ((user_id ≠ tx.buyer_id ∧ user_id ≠ tx.seller_id) →
        dispute_transaction s tid user_id reason now
          = (.error ⟨"TRANS_005", "Unauthorized transaction access"⟩, s))
    ∧ ((user_id = tx.buyer_id ∨ user_id = tx.seller_id) →
        ¬ (tx.state = .COMPLETED ∨ tx.state = .FAILED) →
        dispute_transaction s tid user_id reason now
          = (.error ⟨"TRANS_006",
                     "Transaction cannot be disputed in current state"⟩, s))
    ∧ (∀ (resolution : String) (refund refundOk : Bool) (now2 : ℚ),
        tx.state ≠ .DISPUTED →
        resolve_dispute s tid resolution refund refundOk now2
          = (.error ⟨"TRANS_007", "Transaction is not disputed"⟩, s)) := by
  refine ⟨?_, ?_, ?_, ?_⟩
  · unfold dispute_transaction
    rw [htx]
    dsimp only
    by_cases hb : user_id ≠ tx.buyer_id ∧ user_id ≠ tx.seller_id
    · rw [if_pos hb]
      constructor
      · intro h; exact absurd h (by simp)
      · rintro ⟨hor, _⟩
        rcases hor with h | h
        · exact absurd h hb.1
        · exact absurd h hb.2
    · rw [if_neg hb]
      have hor : user_id = tx.buyer_id ∨ user_id = tx.seller_id := by
        rcases not_and_or.mp hb with h | h
        · exact Or.inl (not_not.mp h)
        · exact Or.inr (not_not.mp h)
      by_cases hs : tx.state ≠ .COMPLETED ∧ tx.state ≠ .FAILED
      · rw [if_pos hs]
        constructor
        · intro h; exact absurd h (by simp)
        · rintro ⟨_, hor2⟩
          rcases hor2 with h | h
          · exact absurd h hs.1
          · exact absurd h hs.2
      · rw [if_neg hs]
        have hst2 : tx.state = .COMPLETED ∨ tx.state = .FAILED := by
          rcases not_and_or.mp hs with h | h
          · exact Or.inl (not_not.mp h)
          · exact Or.inr (not_not.mp h)
        exact ⟨fun _ => ⟨hor, hst2⟩, fun _ => rfl⟩
  · intro hb
    unfold dispute_transaction
    rw [htx]
    dsimp only
    rw [if_pos hb]
  · intro hor hstate
    unfold dispute_transaction
    rw [htx]
    dsimp only
    have hb : ¬ (user_id ≠ tx.buyer_id ∧ user_id ≠ tx.seller_id) := by
      rintro ⟨h1, h2⟩
      rcases hor with h | h
      · exact h1 h
      · exact h2 h
    rw [if_neg hb, if_pos (not_or.mp hstate)]
  · intro resolution refund refundOk now2 hnd
    unfold resolve_dispute
    rw [htx]
    dsimp only
    rw [if_pos hnd]

/-- A COMPLETED purchase by alice from bob, not yet disputed. -/
def c9tx : MPTransaction :=
  { buyer_id := "alice", seller_id := "bob", agent_id := "agent-9"
    listing_id := none, amount := 200, fee := 5, total_amount := 205
    state := .COMPLETED, dispute := none, error := none }

/-- Manager state holding the COMPLETED transaction `t9`. -/
def c9s : TxState :=
  { transactions := [("t9", c9tx)]
    user_transactions := [("alice", ["t9"]), ("bob", ["t9"])]
    metrics := { total_transactions := 1, successful_transactions := 1
                 failed_transactions := 0, dispute_rate := 0 } }

/-- Witness for C9 on the COMPLETED transaction `t9` with caller alice. -/
theorem claim_C9_dispute_state_machine_witness :
    ((dispute_transaction c9s "t9" "alice" "broken" 7).1 = .ok true
        ↔ (("alice" = c9tx.buyer_id ∨ "alice" = c9tx.seller_id)
            ∧ (c9tx.state = .COMPLETED ∨ c9tx.state = .FAILED)))
    ∧ (("alice" ≠ c9tx.buyer_id ∧ "alice" ≠ c9tx.seller_id) →
        dispute_transaction c9s "t9" "alice" "broken" 7
          = (.error ⟨"TRANS_005", "Unauthorized transaction access"⟩, c9s))
    ∧ (("alice" = c9tx.buyer_id ∨ "alice" = c9tx.seller_id) →
        ¬ (c9tx.state = .COMPLETED ∨ c9tx.state = .FAILED) →
        dispute_transaction c9s "t9" "alice" "broken" 7
          = (.error ⟨"TRANS_006",
                     "Transaction cannot be disputed in current state"⟩, c9s))
    ∧ (∀ (resolution : String) (refund refundOk : Bool) (now2 : ℚ),
        c9tx.state ≠ .DISPUTED →
        resolve_dispute c9s "t9" resolution refund refundOk now2
          = (.error ⟨"TRANS_007", "Transaction is not disputed"⟩, c9s)) :=
  claim_C9_dispute_state_machine c9s "t9" "alice" "broken" 7 c9tx (by decide)

/-! ### DynamicStabilizer (tokens/dynamic_stabilizer.py) -/

/-- `self.control_params` of `DynamicStabilizer.__init__`. -/
structure ControlParams where
  kp : ℚ
  ki : ℚ
  kd : ℚ
  integral_error : ℚ
  last_error : ℚ
  damping_factor : ℚ
deriving DecidableEq, Repr

/-- `self.market_state` of `DynamicStabilizer.__init__`. -/
structure MarketState where
  current_price : ℚ
  current_supply : ℚ
  demand_rate : ℚ
  supply_rate : ℚ
  liquidity_depth : ℚ
deriving DecidableEq, Repr

/-- The stabilizer metrics the embedded operations touch (`self.metrics`;
`max_price_deviation` and `price_volatility` are only recomputed inside
`get_metrics`, which no claim reads). -/
structure StabMetrics where
  total_adjustments : ℕ
  successful_adjustments : ℕ
  failed_adjustments : ℕ
  total_supply_changes : ℚ
  average_adjustment_size : ℚ
deriving DecidableEq, Repr

/-- The constructor parameters of `DynamicStabilizer` (never mutated).
`adjustment_interval` is an `int` of seconds in the source. -/
structure StabConfig where
  target_price : ℚ
  price_tolerance : ℚ
  adjustment_interval : ℚ
  max_adjustment : ℚ
deriving DecidableEq, Repr

/-- The mutable `DynamicStabilizer` state: the two bounded sample
deques (entries `(timestamp, value)`), the last adjustment time, metrics,
PID memory and the market-state snapshot. -/
structure StabState where
  price_history : List (ℚ × ℚ)
  volume_history : List (ℚ × ℚ)
  last_adjustment_time : ℚ
  metrics : StabMetrics
  control_params : ControlParams
  market_state : MarketState
deriving DecidableEq, Repr

/-- Append to a `deque(maxlen := cap)`: the new sample goes to the right
and the oldest entries fall off the left when the capacity is exceeded. -/
def pushBounded (cap : ℕ) (l : List (ℚ × ℚ)) (x : ℚ × ℚ) : List (ℚ × ℚ) :=
  let l2 := l ++ [x]
  if l2.length ≤ cap then l2 else l2.drop (l2.length - cap)

/-- The result dict returned by a tick of `check_and_adjust` that reached
the adjusting phase (the float conversions and the timestamp are
display-only). -/
structure AdjustResult where
  price_error : ℚ
  adjustment : ℚ
  supply_change : ℚ
  success : Bool
deriving DecidableEq, Repr

/-- `DynamicStabilizer.check_and_adjust` (lines 210–289).  Returns `none`
while the adjustment interval has not elapsed or the price error is inside
the tolerance band.  Otherwise: PID terms with the integral accumulated in
place (line 230), `adjustment = clamp(-(p+i+d)*damping, ±max_adjustment)`
(line 240), `supply_change = supply * adjustment`; the mint (positive) or
burn (negative) contract call is the external collaborator whose outcome
is `execSuccess` (`_mint_tokens`/`_burn_tokens` catch every exception and
return a boolean).  Metrics update on the outcome, and
`last_adjustment_time`/`last_error` are then written unconditionally
(lines 267–268). -/
def check_and_adjust (cfg : StabConfig) (st : StabState) (now : ℚ)
    (execSuccess : Bool) : Option AdjustResult × StabState :=
  if now - st.last_adjustment_time < cfg.adjustment_interval then (none, st)
  else
    let current_price := st.market_state.current_price
    let price_error := (current_price - cfg.target_price) / cfg.target_price
    if pyAbs price_error ≤ cfg.price_tolerance then (none, st)
    else
      let p_term := st.control_params.kp * price_error
      let integral_error2 :=
        st.control_params.integral_error + price_error * cfg.adjustment_interval
      let i_term := st.control_params.ki * integral_error2
      let d_term := st.control_params.kd *
        (price_error - st.control_params.last_error) / cfg.adjustment_interval
      let adjustment0 := -(p_term + i_term + d_term) * st.control_params.damping_factor
      let adjustment := pyMax (pyMin adjustment0 cfg.max_adjustment) (-cfg.max_adjustment)
      let supply_change := st.market_state.current_supply * adjustment
      let success := execSuccess
      let m1 := { st.metrics with total_adjustments := st.metrics.total_adjustments + 1 }
      let m2 :=
        if success then
          { m1 with
              successful_adjustments := m1.successful_adjustments + 1
              total_supply_changes := m1.total_supply_changes + pyAbs supply_change
              average_adjustment_size :=
                (m1.average_adjustment_size * ((m1.successful_adjustments + 1 : ℕ) - 1 : ℚ)
                    + pyAbs adjustment) / ((m1.successful_adjustments + 1 : ℕ) : ℚ) }
        else
          { m1 with failed_adjustments := m1.failed_adjustments + 1 }
      let st2 :=
        { st with
            metrics := m2
            last_adjustment_time := now
            control_params :=
              { st.control_params with
                  integral_error := integral_error2
                  last_error := price_error } }
      (some { price_error := price_error, adjustment := adjustment,
              supply_change := supply_change, success := success }, st2)

/-- Bounds of the Python clamp `max(min(a, M), -M)` for `0 ≤ M`. -/
lemma pyClamp_bounds (a M : ℚ) (hM : 0 ≤ M) :
    -M ≤ pyMax (pyMin a M) (-M) ∧ pyMax (pyMin a M) (-M) ≤ M := by
  unfold pyMax pyMin
  split_ifs <;> constructor <;> linarith

/-- C7: on every tick that reaches the adjusting phase (the call returns a
result), the computed adjustment lies in `[-max_adjustment,
+max_adjustment]`, whatever the price error and the accumulated PID
state. -/
theorem claim_C7_stabilizer_boundedness (cfg : StabConfig) (st : StabState)
    (now : ℚ) (execSuccess : Bool) (r : AdjustResult)
    (hmax : 0 ≤ cfg.max_adjustment)
    (h : (check_and_adjust cfg st now execSuccess).1 = some r) :
    -cfg.max_adjustment ≤ r.adjustment ∧ r.adjustment ≤ cfg.max_adjustment := by
  simp only [check_and_adjust] at h
  split at h
  · exact absurd h (by simp)
  · split at h
    · exact absurd h (by simp)
    · rw [Option.some_inj] at h
      subst h
      exact pyClamp_bounds _ _ hmax

/-- Stabilizer configuration of the C7/C8 scenarios: target 1.00,
tolerance 2%, hourly interval, 5% max adjustment (the constructor
defaults). -/
def c7cfg : StabConfig :=
  { target_price := 1, price_tolerance := 1 / 50
    adjustment_interval := 3600, max_adjustment := 1 / 20 }

/-- Stabilizer state of the C7/C8 scenarios: fresh PID memory (the
constructor defaults for the gains), price 1.05, supply 1,000,000. -/
def c7st : StabState :=
  { price_history := [], volume_history := [], last_adjustment_time := 0
    metrics := { total_adjustments := 0, successful_adjustments := 0
                 failed_adjustments := 0, total_supply_changes := 0
                 average_adjustment_size := 0 }
    control_params := { kp := 1 / 2, ki := 1 / 10, kd := 1 / 5
                        integral_error := 0, last_error := 0
                        damping_factor := 4 / 5 }
    market_state := { current_price := 21 / 20, current_supply := 1000000
                      demand_rate := 0, supply_rate := 0
                      liquidity_depth := 0 } }

/-- The tick result of the C7 scenario: error 5%, raw PID output far below
the floor, clamped to the −5% bound, burning 50,000 tokens. -/
def c7r : AdjustResult :=
  { price_error := 1 / 20, adjustment := -(1 / 20)
    supply_change := -50000, success := true }

/-- Witness for C7 at the concrete tick (price 1.05 against target 1.00,
adjustment clamped to −5%). -/
theorem claim_C7_stabilizer_boundedness_witness :
    -c7cfg.max_adjustment ≤ c7r.adjustment
    ∧ c7r.adjustment ≤ c7cfg.max_adjustment :=
  claim_C7_stabilizer_boundedness c7cfg c7st 3600 true c7r
    (by norm_num [c7cfg])
    (by
      simp only [check_and_adjust, c7cfg, c7st, c7r, pyAbs, pyMin, pyMax,
          Option.some.injEq, AdjustResult.mk.injEq]
      norm_num)

/-- C8 counterexample: a tick whose burn fails (`execSuccess = false`)
does increment the failure counter, but it also rewrites `last_error` and
`integral_error` — they are not left unchanged as claimed. -/
theorem claim_C8_counterexample :
    (check_and_adjust c7cfg c7st 3600 false).2.metrics.failed_adjustments
        = c7st.metrics.failed_adjustments + 1
    ∧ (check_and_adjust c7cfg c7st 3600 false).2.control_params.last_error
        ≠ c7st.control_params.last_error
    ∧ (check_and_adjust c7cfg c7st 3600 false).2.control_params.integral_error
        ≠ c7st.control_params.integral_error := by
  simp only [check_and_adjust, c7cfg, c7st, pyAbs, pyMin, pyMax]
  norm_num

/-- C8 (amended): on a tick that reaches the adjusting phase and whose
mint/burn fails, the failure counter is incremented (and the success
counter untouched), but `integral_error` has already accumulated the
tick's error and `last_error`/`last_adjustment_time` are overwritten with
the tick's values — exactly as on a successful tick; the PID state updates
do not depend on the outcome. -/
theorem claim_C8_stabilizer_failure_semantics (cfg : StabConfig)
    (st : StabState) (now : ℚ)
    (hint : ¬ (now - st.last_adjustment_time < cfg.adjustment_interval))
    (htol : ¬ (pyAbs ((st.market_state.current_price - cfg.target_price)
        / cfg.target_price) ≤ cfg.price_tolerance)) :
    ((check_and_adjust cfg st now false).2.metrics.failed_adjustments
        = st.metrics.failed_adjustments + 1)
    ∧ ((check_and_adjust cfg st now false).2.metrics.successful_adjustments
        = st.metrics.successful_adjustments)
    ∧ ((check_and_adjust cfg st now false).2.metrics.total_adjustments
        = st.metrics.total_adjustments + 1)
    ∧ ((check_and_adjust cfg st now false).2.control_params.integral_error
        = st.control_params.integral_error
            + ((st.market_state.current_price - cfg.target_price)
                / cfg.target_price) * cfg.adjustment_interval)
    ∧ ((check_and_adjust cfg st now false).2.control_params.last_error
        = (st.market_state.current_price - cfg.target_price) / cfg.target_price)
    ∧ ((check_and_adjust cfg st now false).2.last_adjustment_time = now) := by
  simp only [check_and_adjust]
  rw [if_neg hint, if_neg htol]
  exact ⟨rfl, rfl, rfl, rfl, rfl, rfl⟩

/-- Witness for C8 (amended) at the concrete failing tick. -/
theorem claim_C8_stabilizer_failure_semantics_witness :
    ((check_and_adjust c7cfg c7st 3600 false).2.metrics.failed_adjustments
        = c7st.metrics.failed_adjustments + 1)
    ∧ ((check_and_adjust c7cfg c7st 3600 false).2.metrics.successful_adjustments
        = c7st.metrics.successful_adjustments)
    ∧ ((check_and_adjust c7cfg c7st 3600 false).2.metrics.total_adjustments
        = c7st.metrics.total_adjustments + 1)
    ∧ ((check_and_adjust c7cfg c7st 3600 false).2.control_params.integral_error
        = c7st.control_params.integral_error
            + ((c7st.market_state.current_price - c7cfg.target_price)
                / c7cfg.target_price) * c7cfg.adjustment_interval)
    ∧ ((check_and_adjust c7cfg c7st 3600 false).2.control_params.last_error
        = (c7st.market_state.current_price - c7cfg.target_price)
            / c7cfg.target_price)
    ∧ ((check_and_adjust c7cfg c7st 3600 false).2.last_adjustment_time = 3600) :=
  claim_C8_stabilizer_failure_semantics c7cfg c7st 3600
    (by norm_num [c7cfg, c7st])
    (by norm_num [c7cfg, c7st, pyAbs])

/-! ### Market-state ingestion (C10) -/

/-- A transaction sample pushed by the market-data feed into
`update_market_state` (the fields the code reads). -/
structure MTx where
  amount : ℚ
  price : ℚ
  token_type : TokenType
deriving DecidableEq, Repr

/-- The UTILITY-type entries of the feed batch. -/
def utilityTxs (txs : List MTx) : List MTx :=
  txs.filter (fun tx => tx.token_type = .UTILITY)

/-- `total_volume` of `update_market_state` (lines 103–107). -/
def ingestVolume (txs : List MTx) : ℚ :=
  ((utilityTxs txs).map (fun tx => tx.amount)).sum

/-- `weighted_price` of `update_market_state` (lines 109–113): the
volume-weighted average price, falling back to the current price when the
batch carries no UTILITY volume. -/
def ingestPrice (st : StabState) (txs : List MTx) : ℚ :=
  if ingestVolume txs > 0 then
    ((utilityTxs txs).map (fun tx => tx.amount * tx.price)).sum / ingestVolume txs
  else st.market_state.current_price

/-- `DynamicStabilizer._calculate_demand_rate` (lines 175–185): returns 0
while fewer than two volume samples exist; otherwise the list
comprehension filters on `datetime.utcnow() - timedelta(hours=1) <=
timestamp` where `timestamp` is not bound anywhere (the tuple is unpacked
as `_, volume`), so evaluating the condition on the first element raises
`NameError`. -/
def calculate_demand_rate (volume_history : List (ℚ × ℚ)) : Except String ℚ :=
  if volume_history.length < 2 then .ok 0
  else .error "NameError: name timestamp is not defined"

/-- `DynamicStabilizer._calculate_supply_rate` (lines 187–195), with
`_get_initial_supply() = 1000000`; reads the pre-update
`market_state['current_supply']`. -/
def calculate_supply_rate (price_history : List (ℚ × ℚ))
    (current_supply : ℚ) : ℚ :=
  if price_history.length < 2 then 0
  else
    let time_delta := ((price_history.getLast?.getD (0, 0)).1
        - (price_history.head?.getD (0, 0)).1)
    let supply_delta := current_supply - 1000000
    if time_delta > 0 then supply_delta / time_delta else 0

/-- `DynamicStabilizer._calculate_liquidity_depth` (lines 197–204): the
comprehension over `volume_history` has the same unbound `timestamp` as
`_calculate_demand_rate`; with an empty history the body never runs and
the function returns 0, with any sample present it raises `NameError`. -/
def calculate_liquidity_depth (volume_history : List (ℚ × ℚ)) :
    Except String ℚ :=
  if volume_history.isEmpty then .ok 0
  else .error "NameError: name timestamp is not defined"

/-- `DynamicStabilizer.update_market_state` (lines 92–142): an empty batch
returns immediately; otherwise the new weighted-price and volume samples
are appended to the bounded histories (lines 115–117), and then the
`market_state.update({...})` dict literal is evaluated left to right:
supply fetch (external, `supplyFetch`), demand rate, supply rate,
liquidity depth.  Any exception in that evaluation is caught and re-raised
as the structured `STAB_002` error, with the appended samples left in
place. -/
def update_market_state (st : StabState) (now : ℚ) (txs : List MTx)
    (supplyFetch : Except String ℚ) : Except CustomException Unit × StabState :=
  if txs.isEmpty then (.ok (), st)
  else
    let total_volume := ingestVolume txs
    let weighted_price := ingestPrice st txs
    let st1 :=
      { st with
          price_history := pushBounded 1000 st.price_history (now, weighted_price)
          volume_history := pushBounded 1000 st.volume_history (now, total_volume) }
    match supplyFetch with
    | .error _ => (.error ⟨"STAB_002", "Market state update failed"⟩, st1)
    | .ok new_supply =>
      match calculate_demand_rate st1.volume_history with
      | .error _ => (.error ⟨"STAB_002", "Market state update failed"⟩, st1)
      | .ok demand =>
        let supply_rate :=
          calculate_supply_rate st1.price_history st.market_state.current_supply
        match calculate_liquidity_depth st1.volume_history with
        | .error _ => (.error ⟨"STAB_002", "Market state update failed"⟩, st1)
        | .ok liquidity =>
            (.ok (), { st1 with market_state :=
                { current_price := weighted_price, current_supply := new_supply
                  demand_rate := demand, supply_rate := supply_rate
                  liquidity_depth := liquidity } })

lemma pushBounded_ne_nil (l : List (ℚ × ℚ)) (x : ℚ × ℚ) :
    pushBounded 1000 l x ≠ [] := by
  intro hcontra
  have hlen := congrArg List.length hcontra
  unfold pushBounded at hlen
  by_cases h : (l ++ [x]).length ≤ 1000
  · rw [if_pos h] at hlen
    simp at hlen
  · rw [if_neg h] at hlen
    simp only [List.length_drop, List.length_nil] at hlen
    rw [not_le] at h
    omega

/-- C10: every `update_market_state` call with a non-empty batch fails
with the structured `STAB_002` market-state-update error (the derived
metrics read the unbound name `timestamp`), and it fails only after the
new price and volume samples have been appended to the history buffers —
the returned state is exactly the old one plus those two samples, with
`market_state` and everything else untouched. -/
theorem claim_C10_market_ingestion_always_fails (st : StabState) (now : ℚ)
    (txs : List MTx) (supplyFetch : Except String ℚ) (hne : txs ≠ []) :
    update_market_state st now txs supplyFetch
      = (.error ⟨"STAB_002", "Market state update failed"⟩,
         { st with
             price_history := pushBounded 1000 st.price_history (now, ingestPrice st txs)
             volume_history := pushBounded 1000 st.volume_history (now, ingestVolume txs) }) := by
  simp only [update_market_state]
  have hne2 : ¬ (txs.isEmpty = true) := by
    cases txs with
    | nil => exact absurd rfl hne
    | cons a l => simp
  rw [if_neg hne2]
  cases supplyFetch with
  | error e => rfl
  | ok v =>
    dsimp only
    by_cases hlen :
        (pushBounded 1000 st.volume_history (now, ingestVolume txs)).length < 2
    · have hdr : calculate_demand_rate
          (pushBounded 1000 st.volume_history (now, ingestVolume txs)) = .ok 0 := by
        unfold calculate_demand_rate
        rw [if_pos hlen]
      have hempty : (pushBounded 1000 st.volume_history
          (now, ingestVolume txs)).isEmpty = false := by
        cases hv : pushBounded 1000 st.volume_history (now, ingestVolume txs) with
        | nil => exact absurd hv (pushBounded_ne_nil _ _)
        | cons a l => rfl
      have hld : calculate_liquidity_depth
          (pushBounded 1000 st.volume_history (now, ingestVolume txs))
            = .error "NameError: name timestamp is not defined" := by
        unfold calculate_liquidity_depth
        rw [hempty]
        rfl
      rw [hdr]
      dsimp only
      rw [hld]
    · have hdr : calculate_demand_rate
          (pushBounded 1000 st.volume_history (now, ingestVolume txs))
            = .error "NameError: name timestamp is not defined" := by
        unfold calculate_demand_rate
        rw [if_neg hlen]
      rw [hdr]

/-- A single UTILITY feed sample for the C10 witness. -/
def c10tx : MTx := { amount := 50, price := 101 / 100, token_type := .UTILITY }

/-- Witness for C10: one fresh-state ingestion call with one UTILITY
transaction fails with `STAB_002` and leaves the two appended samples
behind. -/
theorem claim_C10_market_ingestion_always_fails_witness :
    update_market_state c7st 100 [c10tx] (.ok 1000000)
      = (.error ⟨"STAB_002", "Market state update failed"⟩,
         { c7st with
             price_history :=
               pushBounded 1000 c7st.price_history (100, ingestPrice c7st [c10tx])
             volume_history :=
               pushBounded 1000 c7st.volume_history (100, ingestVolume [c10tx]) }) :=
  claim_C10_market_ingestion_always_fails c7st 100 [c10tx] (.ok 1000000) (by simp)

end PD
